import Mathlib

/-!
Verification of the `yaml_reading_core` repository (files `yaml_file.py` and
`yaml_reading.py`) against its natural-language specification.

The embedding is shallow:

* YAML values (`YVal`) are a variant type; Python dicts are insertion-ordered
  association lists, so dict assignment (`dictInsert`) updates an existing key
  in place and appends a fresh key at the end, exactly as CPython dicts do.
* The pure navigation methods of `YamlFile` (`exists_key`, `get`, `set`,
  `has_value`, `has_required_keys`, `validate_structure`, `to_dict`) are
  translated to total functions on `YVal`; paths are genuine strings split by
  a literal translation of Python's `str.split('.')`.
* The loader (`YamlReadingCore`) does I/O and calls the external PyYAML
  library; the filesystem is a map from paths to file contents and
  `yaml.safe_load` / `yaml.safe_dump` are oracle parameters, so the theorems
  are about the repository's own glue code, not about PyYAML.
* `YamlFile.merge` mutates nothing but copies; to make "never mutates the
  base" a contentful statement it is additionally modelled over an explicit
  store (`Store`) of dict objects, where Python's `dict.copy()` allocates and
  assignment writes through a reference.
-/

/-- YAML values as produced by the underlying parser: null, booleans,
integers, strings, sequences, and mappings. A mapping is an insertion-ordered
association list, matching CPython dict semantics. -/
inductive YVal where
  | vnull : YVal
  | vbool : Bool → YVal
  | vint : Int → YVal
  | vstr : String → YVal
  | vseq : List YVal → YVal
  | vmap : List (String × YVal) → YVal

/-- Python truthiness `bool(x)` on YAML values: `None`, `False`, `0`, `""`,
`[]` and `{}` are falsy, everything else truthy. -/
def pyTruthy : YVal → Bool
  | YVal.vnull => false
  | YVal.vbool b => b
  | YVal.vint n => n != 0
  | YVal.vstr s => s != ""
  | YVal.vseq xs => !xs.isEmpty
  | YVal.vmap m => !m.isEmpty

/-- Python `x or {}` as it appears in `data or {}` and
`yaml.safe_load(...) or {}`: the value itself when truthy, else an empty
mapping. -/
def pyOrEmpty (v : YVal) : YVal := if pyTruthy v then v else YVal.vmap []

/-- Python dict lookup `d[k]` / membership `k in d` on an insertion-ordered
association list. -/
def alookup {α : Type} : List (String × α) → String → Option α
  | [], _ => none
  | (k', v') :: rest, k => if k' = k then some v' else alookup rest k

/-- Python dict assignment `d[k] = v`: when `k` is present its value is
replaced in place (the key keeps its position), otherwise the binding is
appended at the end, as CPython dicts do. -/
def dictInsert {α : Type} : List (String × α) → String → α → List (String × α)
  | [], k, v => [(k, v)]
  | (k', v') :: rest, k, v =>
      if k' = k then (k', v) :: rest else (k', v') :: dictInsert rest k v

/-- Accumulator loop of the splitter below, over the path's characters. -/
def splitDotGo (acc : List Char) : List Char → List String
  | [] => [String.mk acc.reverse]
  | c :: cs =>
      if c = '.' then String.mk acc.reverse :: splitDotGo [] cs
      else splitDotGo (acc ++ [c]) cs

/-- Python `key_path.split('.')` with the literal separator `'.'`. In
particular `"".split('.') == [""]`: the result is never the empty list. -/
def splitDot (s : String) : List String := splitDotGo [] s.toList

/-- The document wrapper `YamlFile`: the parsed `data` and the optional
`file_path` the document was loaded from. -/
structure YamlFileP where
  data : YVal
  file_path : Option String

namespace YamlFile

/-- `YamlFile.__init__`: `self.data = data or {}`, `self.file_path = file_path`.
A `None` (or otherwise falsy) `data` argument becomes an empty mapping. -/
def init (data : Option YVal) (file_path : Option String) : YamlFileP :=
  ⟨match data with
    | some v => pyOrEmpty v
    | none => YVal.vmap [], file_path⟩

/-- The traversal loop shared by `exists_key` and `get`: follow each segment,
requiring `isinstance(value, dict) and key in value` at every step, and return
the value reached (`none` when the walk fails at some segment). -/
def walk : YVal → List String → Option YVal
  | v, [] => some v
  | YVal.vmap m, k :: ks =>
      (match alookup m k with
        | some v => walk v ks
        | none => none)
  | _, _ :: _ => none

/-- `YamlFile.exists_key`: split on `'.'`, walk `data`, true only when every
segment resolves. Total, hence never raises (the `except` in the source only
guards a non-string `key_path`, which the embedding excludes by typing). -/
def exists_key (data : YVal) (key_path : String) : Bool :=
  (walk data (splitDot key_path)).isSome

/-- `YamlFile.get`: same traversal as `exists_key`; the resolved value, or
`default` as soon as a segment is missing or an intermediate value is not a
mapping. Total, hence never raises. -/
def get (data : YVal) (key_path : String) (default : YVal) : YVal :=
  (walk data (splitDot key_path)).getD default

/-- The loop of `YamlFile.set` after `keys = key_path.split('.')`: for every
segment but the last, descend into the value at that key, first overwriting it
with a fresh empty dict when it is absent or not a dict; assign `value` at the
last segment. The `[]` case is unreachable from `set` (Python's split never
yields an empty list); it mirrors the caught `IndexError` (a silent no-op). -/
def setKeys : List (String × YVal) → List String → YVal → List (String × YVal)
  | m, [], _ => m
  | m, [k], v => dictInsert m k v
  | m, k :: k2 :: ks, v =>
      dictInsert m k (YVal.vmap (setKeys
        (match alookup m k with
          | some (YVal.vmap sub) => sub
          | _ => []) (k2 :: ks) v))

/-- `YamlFile.set` on the document's data. When `data` is not a dict the very
first subscript raises `TypeError`, which the source catches and ignores, so
the data is returned unchanged. -/
def set (data : YVal) (key_path : String) (value : YVal) : YVal :=
  match data with
  | YVal.vmap m => YVal.vmap (setKeys m (splitDot key_path) value)
  | other => other

/-- `YamlFile.has_required_keys`: `all(self.exists_key(key) for key in ...)`. -/
def has_required_keys (data : YVal) (required_keys : List String) : Bool :=
  required_keys.all (fun k => exists_key data k)

/-- `YamlFile.has_value`: `self.get(key_path) is not None` (the default of
`get` is `None`). -/
def has_value (data : YVal) (key_path : String) : Bool :=
  match get data key_path YVal.vnull with
  | YVal.vnull => false
  | _ => true

/-- `YamlFile.validate_structure`: false when `data` is not a dict, else
`all(self.has_value(key_path) for key_path in required_keys)`. -/
def validate_structure (data : YVal) (required_keys : List String) : Bool :=
  match data with
  | YVal.vmap _ => required_keys.all (fun k => has_value data k)
  | _ => false

/-- `YamlFile.to_dict`: `self.data.copy()`. A shallow copy of an immutable
pure value is the value itself. -/
def to_dict (data : YVal) : YVal := data

end YamlFile

/-- The filesystem, as far as this repository observes it: a map from paths to
file contents. -/
def FileSys : Type := String → Option String

/-- Writing a file: the contents at `p` are replaced, everything else kept. -/
def fsUpdate (fs : FileSys) (p t : String) : FileSys :=
  fun q => if q = p then some t else fs q

/-- The typed failures of the loader: `FileNotFoundError`, `ValueError`
("Invalid YAML string"), and `IOError`, each carrying its message. -/
inductive LoadErr where
  | fileNotFound : String → LoadErr
  | invalidFormat : String → LoadErr
  | ioError : String → LoadErr

namespace YamlReadingCore

/-- `YamlReadingCore.read_yaml`. `load` is the external `yaml.safe_load`
(`Except.error` standing for a raised `yaml.YAMLError`). A missing path raises
`FileNotFoundError` inside the `try`; since `FileNotFoundError` is a subclass
of `IOError` it is caught by the same `except` as parse errors and re-raised,
so both failures surface as `FileNotFoundError("File '<path>' not found or
invalid")`. On success the parse result goes through `or {}` and is wrapped
with the source path attached. -/
def read_yaml (load : String → Except Unit YVal) (fs : FileSys)
    (file_path : String) : Except LoadErr YamlFileP :=
  match fs file_path with
  | none =>
      Except.error (LoadErr.fileNotFound
        ("File '" ++ file_path ++ "' not found or invalid"))
  | some text =>
      match load text with
      | Except.error _ =>
          Except.error (LoadErr.fileNotFound
            ("File '" ++ file_path ++ "' not found or invalid"))
      | Except.ok v =>
          Except.ok (YamlFile.init (some (pyOrEmpty v)) (some file_path))

/-- `YamlReadingCore.read_yaml_str`: parse inline text; a `yaml.YAMLError`
becomes `ValueError("Invalid YAML string:\n" + yaml_str)` carrying the
original text; on success the result goes through `or {}` and is wrapped with
no origin path. -/
def read_yaml_str (load : String → Except Unit YVal) (yaml_str : String) :
    Except LoadErr YamlFileP :=
  match load yaml_str with
  | Except.error _ =>
      Except.error (LoadErr.invalidFormat ("Invalid YAML string:\n" ++ yaml_str))
  | Except.ok v => Except.ok (YamlFile.init (some (pyOrEmpty v)) none)

/-- `YamlReadingCore.write_yaml`: serialize a raw mapping with the external
`yaml.safe_dump` (`dump`, `none` standing for a raised `yaml.YAMLError` or
`IOError`) and write the text at `file_path`; a failure is re-raised as
`IOError("Failed to write YAML to '<path>': ...")`. -/
def write_yaml (dump : YVal → Option String) (fs : FileSys)
    (file_path : String) (data : YVal) : Except LoadErr FileSys :=
  match dump data with
  | some text => Except.ok (fsUpdate fs file_path text)
  | none =>
      Except.error (LoadErr.ioError
        ("Failed to write YAML to '" ++ file_path ++ "'"))

end YamlReadingCore

/-- Python truthiness of the optional path arguments of `save`: `None` and the
empty string are falsy. -/
def optTruthy : Option String → Bool
  | none => false
  | some s => s != ""

/-- What a call to `YamlFile.save` does: either it returns a boolean (with the
filesystem it leaves behind), or it raises an uncaught `TypeError`. -/
inductive SaveOutcome where
  | returns : Bool → FileSys → SaveOutcome
  | typeError : SaveOutcome

/-- `YamlFile.save`, line by line: `target_path = file_path or self.file_path`
is computed and checked for truthiness, but the body of the `try` then uses
the `file_path` ARGUMENT, not `target_path`: `Path(None)` raises `TypeError`,
which is not in the caught tuple `(yaml.YAMLError, IOError,
UnicodeEncodeError)` and so escapes to the caller. `Path("")` is the current
directory, so opening it for writing raises `IsADirectoryError ⊆ IOError`,
caught, returning false. `ioFail` stands for any other I/O failure of
mkdir/open/write and `dump none` for a serialization failure, each caught and
returning false. -/
def YamlFile.save (data : YVal) (origin arg : Option String)
    (dump : YVal → Option String) (ioFail : Bool) (fs : FileSys) : SaveOutcome :=
  let target := if optTruthy arg then arg else origin
  if optTruthy target then
    match arg with
    | none => SaveOutcome.typeError
    | some p =>
        if p = "" then SaveOutcome.returns false fs
        else if ioFail then SaveOutcome.returns false fs
        else
          match dump data with
          | some text => SaveOutcome.returns true (fsUpdate fs p text)
          | none => SaveOutcome.returns false fs
  else SaveOutcome.returns false fs

/-! ### The store model of `merge`

`merge` and `_merge_dict_recursive` copy dicts and assign into the copies; to
state that the base document is never written to, dicts live in a store of
numbered objects and every `dict.copy()` is an allocation. -/

/-- A Python value as `merge` distinguishes them: a dict is a reference into
the store (`isinstance(x, dict)` is exactly `ref`); everything else — `None`,
booleans, numbers, strings, and lists, which `merge` moves around whole — is
an atom. -/
inductive HVal where
  | atomN : HVal
  | atomB : Bool → HVal
  | atomI : Int → HVal
  | atomS : String → HVal
  | atomL : List HVal → HVal
  | ref : Nat → HVal

/-- The store of dict objects: addresses below `next` are allocated, and
`mem` gives each dict's current (insertion-ordered) bindings. -/
structure Store where
  next : Nat
  mem : Nat → List (String × HVal)

/-- `dict(...)` / `d.copy()`: a fresh object with the given bindings. -/
def Store.alloc (h : Store) (c : List (String × HVal)) : Store × Nat :=
  (⟨h.next + 1, fun n => if n = h.next then c else h.mem n⟩, h.next)

/-- `d[k] = v` through a reference: updates the object at `a` in place. -/
def swrite (h : Store) (a : Nat) (k : String) (v : HVal) : Store :=
  ⟨h.next, fun n => if n = a then dictInsert (h.mem n) k v else h.mem n⟩

/-- A `YamlFile` in the store model: the address of its `data` dict and its
`file_path`. -/
structure YamlFileH where
  dataA : Nat
  filePath : Option String

/-- `YamlFile.__init__` in the store model: `data or {}` allocates a fresh
empty dict when the argument dict is empty (falsy), else keeps the object. -/
def initH (h : Store) (a : Nat) (fp : Option String) : Store × YamlFileH :=
  match h.mem a with
  | [] => ((h.alloc []).1, ⟨(h.alloc []).2, fp⟩)
  | _ => (h, ⟨a, fp⟩)

/-- The shared loop body of `merge` and `_merge_dict_recursive` over the
override's items, writing into the result dict at `r`; `rec` is the recursive
merge used for the both-sides-dicts case (`none` = `RecursionError`, which no
`except` in the source catches, propagating). -/
def mergeLoopF (rec : Store → Nat → Nat → Store × Option Nat) :
    List (String × HVal) → Store → Nat → Store × Option Nat
  | [], h, r => (h, some r)
  | (k, v) :: rest, h, r =>
      match alookup (h.mem r) k, v with
      | some (HVal.ref bsub), HVal.ref osub =>
          (match rec h bsub osub with
            | (h', some m) => mergeLoopF rec rest (swrite h' r k (HVal.ref m)) r
            | (h', none) => (h', none))
      | _, _ => mergeLoopF rec rest (swrite h r k v) r

/-- `YamlFile._merge_dict_recursive`: copy the base, then run the loop; each
nested call consumes one unit of `fuel` (Python's recursion limit), and at
zero the call raises `RecursionError`. Its own `except
(AttributeError, TypeError)` is unreachable: both arguments are dicts at every
call site. -/
def mergeDictRec : Nat → Store → Nat → Nat → Store × Option Nat
  | 0, h, _, _ => (h, none)
  | Nat.succ fuel, h, baseA, ovA =>
      mergeLoopF (mergeDictRec fuel) (h.mem ovA)
        (h.alloc (h.mem baseA)).1 (h.alloc (h.mem baseA)).2

/-- `YamlFile.merge` in the store model. With a dict override:
`result = self.data.copy()`, the items loop, then `YamlFile(result,
self.file_path)`. With a non-dict override, `override_data.items()` raises
`AttributeError` (after `result` was already allocated), caught by the
fallback `return YamlFile(self.data.copy(), self.file_path)`. -/
def YamlFile.mergeH (fuel : Nat) (h : Store) (self : YamlFileH) (ov : HVal) :
    Store × Option YamlFileH :=
  match ov with
  | HVal.ref ovA =>
      match mergeLoopF (mergeDictRec fuel) (h.mem ovA)
          (h.alloc (h.mem self.dataA)).1 (h.alloc (h.mem self.dataA)).2 with
      | (h', some resA) =>
          ((initH h' resA self.filePath).1, some (initH h' resA self.filePath).2)
      | (h', none) => (h', none)
  | _ =>
      let p := h.alloc (h.mem self.dataA)
      let p2 := p.1.alloc (p.1.mem self.dataA)
      ((initH p2.1 p2.2 self.filePath).1, some (initH p2.1 p2.2 self.filePath).2)

/-- `YamlFile.to_dict` in the store model: `self.data.copy()` observed by its
bindings. -/
def toDictH (h : Store) (a : Nat) : List (String × HVal) := h.mem a

/-- The specification's notion of a dot-path resolving in nested mappings:
the empty path resolves to the value itself, and `k :: ks` resolves in a
mapping whose key `k` holds a value in which `ks` resolves. Written from the
spec's words ("each segment a present key of a nested mapping"), to be
compared with the code's `walk`. -/
inductive Resolves : YVal → List String → YVal → Prop where
  | nil (v : YVal) : Resolves v [] v
  | cons (m : List (String × YVal)) (k : String) (v r : YVal) (ks : List String) :
      alookup m k = some v → Resolves v ks r → Resolves (YVal.vmap m) (k :: ks) r

/-- `isinstance(x, dict)` on a pure YAML value. -/
def isDict : YVal → Bool
  | YVal.vmap _ => true
  | _ => false

/-- Concrete store for the C5 witness: object 0 is the base document's dict
`{"a": 1}`, object 1 is an empty dict used as the empty override. -/
def hEx : Store := ⟨2, fun n => if n = 0 then [("a", HVal.atomI 1)] else []⟩

/-- The base document of the C5 witness, loaded from "base.yaml". -/
def selfEx : YamlFileH := ⟨0, some "base.yaml"⟩

/-- Concrete store for the C10 witness: a single dict object `{"k": 2}`. -/
def hEx2 : Store := ⟨1, fun _ => [("k", HVal.atomI 2)]⟩

/-- The base document of the C10 witness, loaded from "origin.yaml". -/
def selfEx2 : YamlFileH := ⟨0, some "origin.yaml"⟩

/-! ## Lemmas about dict operations and traversal -/

theorem alookup_dictInsert_self {α : Type} (m : List (String × α)) (k : String) (v : α) :
    alookup (dictInsert m k v) k = some v := by
  induction m with
  | nil => simp [dictInsert, alookup]
  | cons kv rest ih =>
    obtain ⟨k2, v2⟩ := kv
    by_cases h2 : k2 = k <;> simp [dictInsert, alookup, h2, ih]

theorem alookup_dictInsert_ne {α : Type} (m : List (String × α)) (k k' : String) (v : α)
    (hk : k' ≠ k) : alookup (dictInsert m k v) k' = alookup m k' := by
  induction m with
  | nil => simp [dictInsert, alookup, Ne.symm hk]
  | cons kv rest ih =>
    obtain ⟨k2, v2⟩ := kv
    by_cases h2 : k2 = k
    · subst h2; simp [dictInsert, alookup, Ne.symm hk]
    · by_cases h3 : k2 = k' <;> simp [dictInsert, alookup, h2, h3, ih, hk]

theorem dictInsert_dictInsert {α : Type} (m : List (String × α)) (k : String) (v w : α) :
    dictInsert (dictInsert m k v) k w = dictInsert m k w := by
  induction m with
  | nil => simp [dictInsert]
  | cons kv rest ih =>
    obtain ⟨k2, v2⟩ := kv
    by_cases h2 : k2 = k <;> simp [dictInsert, h2, ih]

theorem pyOrEmpty_ne_null (v : YVal) : pyOrEmpty v ≠ YVal.vnull := by
  by_cases h : pyTruthy v = true
  · simp only [pyOrEmpty, h, if_true]
    intro heq; subst heq; simp [pyTruthy] at h
  · simp only [pyOrEmpty, h, if_false, Bool.false_eq_true]
    intro heq; exact YVal.noConfusion heq

theorem pyOrEmpty_vmap (m : List (String × YVal)) :
    pyOrEmpty (YVal.vmap m) = YVal.vmap m := by
  cases m <;> simp [pyOrEmpty, pyTruthy]

/-- The empty segment list makes the traversal yield the value itself. -/
theorem walk_nil (d : YVal) : YamlFile.walk d [] = some d := by
  cases d <;> rfl

/-- The code's traversal agrees with the specification's notion of
resolution: `walk` returns `some r` exactly when the path resolves to `r`. -/
theorem walk_iff_resolves : ∀ (ks : List String) (d r : YVal),
    YamlFile.walk d ks = some r ↔ Resolves d ks r := by
  intro ks
  induction ks with
  | nil =>
    intro d r
    rw [walk_nil]
    constructor
    · intro h; injection h with h2; subst h2; exact Resolves.nil d
    · intro h; cases h; rfl
  | cons k ks ih =>
    intro d r
    cases d
    case vmap m =>
      simp only [YamlFile.walk]
      cases ha : alookup m k with
      | none =>
        constructor
        · intro h; exact Option.noConfusion h
        · intro h
          cases h with
          | cons _ _ v2 _ _ ha2 hr2 => rw [ha] at ha2; exact Option.noConfusion ha2
      | some v =>
        constructor
        · intro h; exact Resolves.cons m k v r ks ha ((ih v r).mp h)
        · intro h
          cases h with
          | cons _ _ v2 _ _ ha2 hr2 =>
            rw [ha] at ha2
            injection ha2 with hv
            subst hv
            exact (ih _ r).mpr hr2
    all_goals
      constructor
      · intro h; exact Option.noConfusion h
      · intro h; nomatch h

/-- Idempotence of the `set` loop on the split segments. -/
theorem setKeys_idem (ks : List String) : ∀ (m : List (String × YVal)) (v : YVal),
    YamlFile.setKeys (YamlFile.setKeys m ks v) ks v = YamlFile.setKeys m ks v := by
  induction ks with
  | nil => intro m v; rfl
  | cons k tail ih =>
    cases tail with
    | nil =>
      intro m v
      simp only [YamlFile.setKeys]
      exact dictInsert_dictInsert m k v v
    | cons k2 ks2 =>
      intro m v
      simp only [YamlFile.setKeys]
      rw [alookup_dictInsert_self]
      simp only [ih]
      rw [dictInsert_dictInsert]

/-! ## Claim theorems: the pure model -/

/-- C1: the claim says `save()` with no argument but a non-null `origin_path`
serializes to the origin and returns a boolean, never raising. The code
computes `target_path` but then calls `Path(file_path)` on the omitted
argument, so it raises an uncaught `TypeError` instead (first conjunct): the
intended origin-path fallback is dead code. The further conjuncts record the
parts of the claim the code does honour: with no path at all it returns false
leaving the filesystem untouched, and with an explicit argument it writes and
returns true. -/
theorem save_with_origin_only_raises :
    YamlFile.save (YVal.vmap [("a", YVal.vint 1)]) (some "config.yaml") none
      (fun _ => some "a: 1") false (fun _ => none) = SaveOutcome.typeError ∧
    YamlFile.save (YVal.vmap [("a", YVal.vint 1)]) none none
      (fun _ => some "a: 1") false (fun _ => none)
      = SaveOutcome.returns false (fun _ => none) ∧
    YamlFile.save (YVal.vmap [("a", YVal.vint 1)]) none (some "out.yaml")
      (fun _ => some "a: 1") false (fun _ => none)
      = SaveOutcome.returns true (fsUpdate (fun _ => none) "out.yaml" "a: 1") :=
  ⟨rfl, rfl, rfl⟩

/-- C2 counterexample: `set` with the empty-string path is NOT a no-op.
Python's `"".split('.')` is `[""]`, so the final segment is the empty-string
key and `set("", v)` assigns it: on the empty document the data changes. -/
theorem set_empty_path_not_noop :
    YamlFile.set (YVal.vmap []) "" (YVal.vint 1) = YVal.vmap [("", YVal.vint 1)] ∧
    YVal.vmap [("", YVal.vint 1)] ≠ YVal.vmap [] :=
  ⟨rfl, by simp⟩

/-- C2 (amended): `set` with the empty-string path raises nothing, but on
mapping data it assigns `value` at the empty-string key — the single segment
produced by `"".split('.')` — leaving every other key unchanged; it is a
no-op only on non-mapping data. -/
theorem set_empty_path_assigns_empty_key (m : List (String × YVal)) (v d : YVal) :
    YamlFile.set (YVal.vmap m) "" v = YVal.vmap (dictInsert m "" v) ∧
    alookup (dictInsert m "" v) "" = some v ∧
    (∀ k, k ≠ "" → alookup (dictInsert m "" v) k = alookup m k) ∧
    (isDict d = false → YamlFile.set d "" v = d) := by
  refine ⟨rfl, alookup_dictInsert_self m "" v, fun k hk => alookup_dictInsert_ne m "" k v hk, ?_⟩
  intro hd
  cases d <;> first | rfl | simp [isDict] at hd

/-- C3 counterexample: a document constructed from a truthy non-mapping parse
result keeps it as `data`: `read_string` on the sequence `- 1` yields a
document whose `data` is a sequence, not a mapping. -/
theorem sequence_root_data_not_mapping :
    YamlReadingCore.read_yaml_str (fun _ => Except.ok (YVal.vseq [YVal.vint 1])) "- 1"
      = Except.ok ⟨YVal.vseq [YVal.vint 1], none⟩ ∧
    (YamlFile.init (some (YVal.vseq [YVal.vint 1])) none).data = YVal.vseq [YVal.vint 1] ∧
    isDict (YVal.vseq [YVal.vint 1]) = false :=
  ⟨rfl, rfl, rfl⟩

/-- C3 (amended): however a document is constructed — directly, via
`read_file`, or via `read_string` — its `data` is never null: a falsy
argument or parse result (null, empty) is replaced by an empty mapping. But
`data` need not be a mapping: a truthy non-mapping value is stored as-is. -/
theorem constructed_data_never_null (dOpt : Option YVal) (v : YVal) (fp : Option String)
    (load : String → Except Unit YVal) (fs : FileSys) (path s : String) :
    (YamlFile.init dOpt fp).data ≠ YVal.vnull ∧
    (pyTruthy v = false → (YamlFile.init (some v) fp).data = YVal.vmap []) ∧
    (∀ f, YamlReadingCore.read_yaml load fs path = Except.ok f → f.data ≠ YVal.vnull) ∧
    (∀ f, YamlReadingCore.read_yaml_str load s = Except.ok f → f.data ≠ YVal.vnull) := by
  refine ⟨?_, ?_, ?_, ?_⟩
  · cases dOpt with
    | none => simp [YamlFile.init]
    | some v0 => exact pyOrEmpty_ne_null v0
  · intro hv; simp [YamlFile.init, pyOrEmpty, hv]
  · intro f hf
    cases h1 : fs path with
    | none => simp [YamlReadingCore.read_yaml, h1] at hf
    | some text =>
      cases h2 : load text with
      | error e => simp [YamlReadingCore.read_yaml, h1, h2] at hf
      | ok v0 =>
        simp only [YamlReadingCore.read_yaml, h1, h2] at hf
        injection hf with hf2
        subst hf2
        exact pyOrEmpty_ne_null _
  · intro f hf
    cases h2 : load s with
    | error e => simp [YamlReadingCore.read_yaml_str, h2] at hf
    | ok v0 =>
      simp only [YamlReadingCore.read_yaml_str, h2] at hf
      injection hf with hf2
      subst hf2
      exact pyOrEmpty_ne_null _

/-- C4: on any document data, a dot-path that resolves (in the
specification's sense, `Resolves`) is returned by `get` and affirmed by
`exists_key`; a path that does not resolve makes `get` return the default and
`exists_key` false. Both functions are total, hence never raise. -/
theorem get_exists_key_follow_resolution (d : YVal) (p : String) (dflt : YVal) :
    (∀ r, Resolves d (splitDot p) r →
      YamlFile.get d p dflt = r ∧ YamlFile.exists_key d p = true) ∧
    ((∀ r, ¬ Resolves d (splitDot p) r) →
      YamlFile.get d p dflt = dflt ∧ YamlFile.exists_key d p = false) := by
  constructor
  · intro r hr
    have hw : YamlFile.walk d (splitDot p) = some r := (walk_iff_resolves _ _ _).mpr hr
    simp [YamlFile.get, YamlFile.exists_key, hw]
  · intro hn
    cases hw : YamlFile.walk d (splitDot p) with
    | none => simp [YamlFile.get, YamlFile.exists_key, hw]
    | some r => exact absurd ((walk_iff_resolves _ _ _).mp hw) (hn r)

/-- C4 witness: on `{"a": {"b": 7}}` the path `a.b` resolves to 7 and `a.c`
does not, with `get`/`exists_key` behaving accordingly. -/
theorem get_exists_key_follow_resolution_witness :
    YamlFile.get (YVal.vmap [("a", YVal.vmap [("b", YVal.vint 7)])]) "a.b" (YVal.vint 0)
      = YVal.vint 7 ∧
    YamlFile.exists_key (YVal.vmap [("a", YVal.vmap [("b", YVal.vint 7)])]) "a.b" = true ∧
    YamlFile.get (YVal.vmap [("a", YVal.vmap [("b", YVal.vint 7)])]) "a.c" (YVal.vint 0)
      = YVal.vint 0 ∧
    YamlFile.exists_key (YVal.vmap [("a", YVal.vmap [("b", YVal.vint 7)])]) "a.c" = false := by
  have hres : Resolves (YVal.vmap [("a", YVal.vmap [("b", YVal.vint 7)])])
      (splitDot "a.b") (YVal.vint 7) := by
    show Resolves _ ["a", "b"] _
    exact Resolves.cons _ _ _ _ _ rfl (Resolves.cons _ _ _ _ _ rfl (Resolves.nil _))
  have hno : ∀ r, ¬ Resolves (YVal.vmap [("a", YVal.vmap [("b", YVal.vint 7)])])
      (splitDot "a.c") r := by
    intro r hr
    have hw := (walk_iff_resolves _ _ _).mpr hr
    rw [show YamlFile.walk (YVal.vmap [("a", YVal.vmap [("b", YVal.vint 7)])])
        (splitDot "a.c") = none from rfl] at hw
    exact Option.noConfusion hw
  obtain ⟨h1, h2⟩ := (get_exists_key_follow_resolution
    (YVal.vmap [("a", YVal.vmap [("b", YVal.vint 7)])]) "a.b" (YVal.vint 0)).1 _ hres
  obtain ⟨h3, h4⟩ := (get_exists_key_follow_resolution
    (YVal.vmap [("a", YVal.vmap [("b", YVal.vint 7)])]) "a.c" (YVal.vint 0)).2 hno
  exact ⟨h1, h2, h3, h4⟩

/-- C6: `read_file` on a path missing from the filesystem fails with the
Not-Found error carrying the offending path, and `read_string` on text the
parser rejects fails with the Invalid-Format error carrying the original
text; being errors, neither returns a document. -/
theorem load_failures_are_typed (load : String → Except Unit YVal) (fs : FileSys)
    (path s : String) (hmiss : fs path = none) (hbad : load s = Except.error ()) :
    YamlReadingCore.read_yaml load fs path
      = Except.error (LoadErr.fileNotFound ("File '" ++ path ++ "' not found or invalid")) ∧
    YamlReadingCore.read_yaml_str load s
      = Except.error (LoadErr.invalidFormat ("Invalid YAML string:\n" ++ s)) := by
  constructor
  · simp [YamlReadingCore.read_yaml, hmiss]
  · simp [YamlReadingCore.read_yaml_str, hbad]

/-- C6 witness: an empty filesystem and an always-failing parser at concrete
inputs. -/
theorem load_failures_are_typed_witness :
    YamlReadingCore.read_yaml (fun _ => Except.error ()) (fun _ => none) "missing.yaml"
      = Except.error (LoadErr.fileNotFound
          ("File '" ++ "missing.yaml" ++ "' not found or invalid")) ∧
    YamlReadingCore.read_yaml_str (fun _ => Except.error ()) "a: [1,"
      = Except.error (LoadErr.invalidFormat ("Invalid YAML string:\n" ++ "a: [1,")) :=
  load_failures_are_typed (fun _ => Except.error ()) (fun _ => none) "missing.yaml" "a: [1,"
    rfl rfl

/-- C7: on mapping data, when a path resolves to a null value
`validate_structure` of that one path is false while `has_required_keys` is
true; when it resolves to a non-null value both are true — existence alone
satisfies `has_required_keys`, non-nullness is what `validate_structure`
adds. -/
theorem validate_structure_vs_required_keys (m : List (String × YVal)) (p : String)
    (r : YVal) (h : Resolves (YVal.vmap m) (splitDot p) r) :
    (r = YVal.vnull → YamlFile.validate_structure (YVal.vmap m) [p] = false) ∧
    (r ≠ YVal.vnull → YamlFile.validate_structure (YVal.vmap m) [p] = true) ∧
    YamlFile.has_required_keys (YVal.vmap m) [p] = true := by
  have hw : YamlFile.walk (YVal.vmap m) (splitDot p) = some r :=
    (walk_iff_resolves _ _ _).mpr h
  have hg : YamlFile.get (YVal.vmap m) p YVal.vnull = r := by
    simp [YamlFile.get, hw]
  refine ⟨?_, ?_, ?_⟩
  · intro hr
    subst hr
    have hv : YamlFile.has_value (YVal.vmap m) p = false := by
      simp [YamlFile.has_value, hg]
    simp [YamlFile.validate_structure, hv]
  · intro hr
    have hv : YamlFile.has_value (YVal.vmap m) p = true := by
      simp only [YamlFile.has_value, hg]
    simp [YamlFile.validate_structure, hv]
  · simp [YamlFile.has_required_keys, YamlFile.exists_key, hw]

/-- C7 witness: in `{"a": {"b": null}}` the path `a.b` is present but null —
`validate_structure` rejects, `has_required_keys` accepts; in
`{"a": {"b": 3}}` both accept. -/
theorem validate_structure_vs_required_keys_witness :
    YamlFile.validate_structure (YVal.vmap [("a", YVal.vmap [("b", YVal.vnull)])]) ["a.b"]
      = false ∧
    YamlFile.has_required_keys (YVal.vmap [("a", YVal.vmap [("b", YVal.vnull)])]) ["a.b"]
      = true ∧
    YamlFile.validate_structure (YVal.vmap [("a", YVal.vmap [("b", YVal.vint 3)])]) ["a.b"]
      = true := by
  have hres1 : Resolves (YVal.vmap [("a", YVal.vmap [("b", YVal.vnull)])])
      (splitDot "a.b") YVal.vnull := by
    show Resolves _ ["a", "b"] _
    exact Resolves.cons _ _ _ _ _ rfl (Resolves.cons _ _ _ _ _ rfl (Resolves.nil _))
  have hres2 : Resolves (YVal.vmap [("a", YVal.vmap [("b", YVal.vint 3)])])
      (splitDot "a.b") (YVal.vint 3) := by
    show Resolves _ ["a", "b"] _
    exact Resolves.cons _ _ _ _ _ rfl (Resolves.cons _ _ _ _ _ rfl (Resolves.nil _))
  refine ⟨?_, ?_, ?_⟩
  · exact (validate_structure_vs_required_keys _ "a.b" YVal.vnull hres1).1 rfl
  · exact (validate_structure_vs_required_keys _ "a.b" YVal.vnull hres1).2.2
  · exact (validate_structure_vs_required_keys _ "a.b" (YVal.vint 3) hres2).2.1 (by simp)

/-- C8: `set` is idempotent — running `set(p, v)` twice leaves `data` exactly
as running it once, for every document data, path and value. -/
theorem set_idempotent (d : YVal) (p : String) (v : YVal) :
    YamlFile.set (YamlFile.set d p v) p v = YamlFile.set d p v := by
  cases d with
  | vmap m =>
    simp only [YamlFile.set]
    exact congrArg YVal.vmap (setKeys_idem (splitDot p) m v)
  | vnull => rfl
  | vbool b => rfl
  | vint n => rfl
  | vstr s => rfl
  | vseq xs => rfl

/-- C9: writing a raw mapping with `write_raw` and reading it back with
`read_file` round-trips: whenever the external YAML layer round-trips the
mapping (the serializer emits text the parser reads back as the same value —
the claim's "YAML-representable" hypothesis), the repository's glue returns a
document over exactly that mapping, with `to_dict` equal to it. The `or {}`
normalization cannot interfere: on mappings it is the identity. -/
theorem write_read_roundtrip (dump : YVal → Option String)
    (load : String → Except Unit YVal) (fs : FileSys) (path text : String)
    (m : List (String × YVal)) (hdump : dump (YVal.vmap m) = some text)
    (hload : load text = Except.ok (YVal.vmap m)) :
    YamlReadingCore.write_yaml dump fs path (YVal.vmap m)
      = Except.ok (fsUpdate fs path text) ∧
    YamlReadingCore.read_yaml load (fsUpdate fs path text) path
      = Except.ok ⟨YVal.vmap m, some path⟩ ∧
    YamlFile.to_dict (YVal.vmap m) = YVal.vmap m := by
  refine ⟨?_, ?_, rfl⟩
  · simp [YamlReadingCore.write_yaml, hdump]
  · have hfs : fsUpdate fs path text path = some text := by simp [fsUpdate]
    simp [YamlReadingCore.read_yaml, hfs, hload, YamlFile.init, pyOrEmpty_vmap]

/-- C9 witness: the mapping `{"a": 1}` through a concrete serializer/parser
pair that round-trips it. -/
theorem write_read_roundtrip_witness :
    YamlReadingCore.write_yaml (fun _ => some "a: 1") (fun _ => none) "c.yaml"
      (YVal.vmap [("a", YVal.vint 1)])
      = Except.ok (fsUpdate (fun _ => none) "c.yaml" "a: 1") ∧
    YamlReadingCore.read_yaml (fun _ => Except.ok (YVal.vmap [("a", YVal.vint 1)]))
      (fsUpdate (fun _ => none) "c.yaml" "a: 1") "c.yaml"
      = Except.ok ⟨YVal.vmap [("a", YVal.vint 1)], some "c.yaml"⟩ ∧
    YamlFile.to_dict (YVal.vmap [("a", YVal.vint 1)]) = YVal.vmap [("a", YVal.vint 1)] :=
  write_read_roundtrip (fun _ => some "a: 1")
    (fun _ => Except.ok (YVal.vmap [("a", YVal.vint 1)])) (fun _ => none)
    "c.yaml" "a: 1" [("a", YVal.vint 1)] rfl rfl

/-! ## Lemmas about the store model of `merge` -/

/-- Store `h'` extends store `h`: nothing already allocated has been written. -/
def StoreExtends (h h' : Store) : Prop :=
  h.next ≤ h'.next ∧ ∀ x, x < h.next → h'.mem x = h.mem x

theorem storeExtends_rfl (h : Store) : StoreExtends h h :=
  ⟨le_refl _, fun _ _ => rfl⟩

theorem storeExtends_trans {a b c : Store} (h1 : StoreExtends a b)
    (h2 : StoreExtends b c) : StoreExtends a c :=
  ⟨le_trans h1.1 h2.1,
   fun x hx => (h2.2 x (lt_of_lt_of_le hx h1.1)).trans (h1.2 x hx)⟩

theorem alloc_storeExtends (h : Store) (c : List (String × HVal)) :
    StoreExtends h (h.alloc c).1 := by
  refine ⟨Nat.le_succ _, fun x hx => ?_⟩
  simp [Store.alloc, Nat.ne_of_lt hx]

theorem alloc_mem_self (h : Store) (c : List (String × HVal)) :
    ((h.alloc c).1).mem (h.alloc c).2 = c := by
  simp [Store.alloc]

theorem swrite_mem_ne (h : Store) (a : Nat) (k : String) (v : HVal) (x : Nat)
    (hx : x ≠ a) : (swrite h a k v).mem x = h.mem x := by
  simp [swrite, hx]

theorem initH_storeExtends (h : Store) (a : Nat) (fp : Option String) :
    StoreExtends h (initH h a fp).1 := by
  cases hm : h.mem a with
  | nil => simp only [initH, hm]; exact alloc_storeExtends h []
  | cons kv tl => simp only [initH, hm]; exact storeExtends_rfl h

theorem initH_filePath (h : Store) (a : Nat) (fp : Option String) :
    ((initH h a fp).2).filePath = fp := by
  cases hm : h.mem a <;> simp [initH, hm]

theorem initH_toDict (h : Store) (a : Nat) (fp : Option String) :
    toDictH (initH h a fp).1 ((initH h a fp).2).dataA = h.mem a := by
  cases hm : h.mem a with
  | nil => simp [initH, hm, toDictH, Store.alloc]
  | cons kv tl => simp [initH, hm, toDictH]

theorem fallbackH_storeExtends (h : Store) (self : YamlFileH) :
    StoreExtends h (initH ((h.alloc (h.mem self.dataA)).1.alloc
      ((h.alloc (h.mem self.dataA)).1.mem self.dataA)).1
      ((h.alloc (h.mem self.dataA)).1.alloc
        ((h.alloc (h.mem self.dataA)).1.mem self.dataA)).2 self.filePath).1 :=
  storeExtends_trans (alloc_storeExtends h _)
    (storeExtends_trans (alloc_storeExtends _ _) (initH_storeExtends _ _ _))

/-- The items loop writes only to the result object `r` and to objects the
recursive merge itself allocates, so every pre-existing object other than `r`
is untouched, and allocation only grows. -/
theorem mergeLoopF_frame (rec : Store → Nat → Nat → Store × Option Nat)
    (hrec : ∀ h0 a b, StoreExtends h0 (rec h0 a b).1) :
    ∀ (items : List (String × HVal)) (h0 : Store) (r : Nat),
      h0.next ≤ (mergeLoopF rec items h0 r).1.next ∧
      ∀ x, x < h0.next → x ≠ r → (mergeLoopF rec items h0 r).1.mem x = h0.mem x := by
  intro items
  induction items with
  | nil => intro h0 r; exact ⟨le_refl _, fun x _ _ => rfl⟩
  | cons kv rest ih =>
    intro h0 r
    obtain ⟨k, v⟩ := kv
    simp only [mergeLoopF]
    split
    · next bsub osub _ =>
      rcases hre : rec h0 bsub osub with ⟨h1, m1⟩
      have hx1 : StoreExtends h0 h1 := by
        have hh := hrec h0 bsub osub
        rw [hre] at hh
        exact hh
      cases m1 with
      | some mm =>
        have ihh := ih (swrite h1 r k (HVal.ref mm)) r
        constructor
        · exact le_trans hx1.1 ihh.1
        · intro x hx hxr
          have hx' : x < (swrite h1 r k (HVal.ref mm)).next :=
            lt_of_lt_of_le hx hx1.1
          show (mergeLoopF rec rest (swrite h1 r k (HVal.ref mm)) r).1.mem x = h0.mem x
          rw [ihh.2 x hx' hxr, swrite_mem_ne h1 r k _ x hxr, hx1.2 x hx]
      | none =>
        exact ⟨hx1.1, fun x hx _ => hx1.2 x hx⟩
    · next =>
      rename_i v1 xo vo hno
      refine ⟨(ih (swrite h0 r k v1) r).1, fun x hx hxr => ?_⟩
      rw [(ih (swrite h0 r k v1) r).2 x hx hxr, swrite_mem_ne h0 r k v1 x hxr]

/-- `_merge_dict_recursive` never writes to a pre-existing object: it copies
the base into a fresh dict and lets the loop write only there. -/
theorem mergeDictRec_storeExtends : ∀ (fuel : Nat) (h : Store) (a b : Nat),
    StoreExtends h (mergeDictRec fuel h a b).1 := by
  intro fuel
  induction fuel with
  | zero => intro h a b; exact storeExtends_rfl h
  | succ f ih =>
    intro h a b
    simp only [mergeDictRec]
    have hall := mergeLoopF_frame (mergeDictRec f) ih (h.mem b)
      (h.alloc (h.mem a)).1 (h.alloc (h.mem a)).2
    constructor
    · exact le_trans (alloc_storeExtends h (h.mem a)).1 hall.1
    · intro x hx
      have h1 : x < (h.alloc (h.mem a)).1.next :=
        lt_of_lt_of_le hx (alloc_storeExtends h (h.mem a)).1
      have h2 : x ≠ (h.alloc (h.mem a)).2 := Nat.ne_of_lt hx
      rw [hall.2 x h1 h2, (alloc_storeExtends h (h.mem a)).2 x hx]

/-- `merge` never writes to a pre-existing object, whatever the override. -/
theorem mergeH_frame (fuel : Nat) (h : Store) (self : YamlFileH) (ov : HVal) :
    ∀ x, x < h.next → ((YamlFile.mergeH fuel h self ov).1).mem x = h.mem x := by
  intro x hx
  cases ov
  case ref ovA =>
    simp only [YamlFile.mergeH]
    rcases hml : mergeLoopF (mergeDictRec fuel) (h.mem ovA)
        (h.alloc (h.mem self.dataA)).1 (h.alloc (h.mem self.dataA)).2 with ⟨h1, o⟩
    have hall := mergeLoopF_frame (mergeDictRec fuel) (mergeDictRec_storeExtends fuel)
      (h.mem ovA) (h.alloc (h.mem self.dataA)).1 (h.alloc (h.mem self.dataA)).2
    rw [hml] at hall
    have hx1 : x < (h.alloc (h.mem self.dataA)).1.next :=
      lt_of_lt_of_le hx (alloc_storeExtends h (h.mem self.dataA)).1
    have hx2 : x ≠ (h.alloc (h.mem self.dataA)).2 := Nat.ne_of_lt hx
    have hmem1 : h1.mem x = h.mem x := by
      rw [hall.2 x hx1 hx2, (alloc_storeExtends h (h.mem self.dataA)).2 x hx]
    cases o with
    | some resA =>
      have hi := initH_storeExtends h1 resA self.filePath
      show (initH h1 resA self.filePath).1.mem x = h.mem x
      rw [hi.2 x (lt_of_lt_of_le hx (le_trans (alloc_storeExtends h _).1 hall.1)), hmem1]
    | none =>
      exact hmem1
  all_goals
    simp only [YamlFile.mergeH]
    exact (fallbackH_storeExtends h self).2 x hx

/-- C5: `merge` leaves the base document — indeed every pre-existing object in
the store, hence everything reachable from `base.data` — unchanged, for any
override and any recursion budget; and merging an empty override dict returns
a document whose `to_dict` equals the base's `to_dict`. -/
theorem merge_never_mutates_and_empty_identity (fuel : Nat) (h : Store)
    (self : YamlFileH) (ov : HVal) (e : Nat) (he : h.mem e = []) :
    (∀ x, x < h.next → ((YamlFile.mergeH fuel h self ov).1).mem x = h.mem x) ∧
    ((YamlFile.mergeH fuel h self (HVal.ref e)).2).isSome = true ∧
    toDictH (YamlFile.mergeH fuel h self (HVal.ref e)).1
        (((YamlFile.mergeH fuel h self (HVal.ref e)).2).getD ⟨0, none⟩).dataA
      = toDictH h self.dataA := by
  refine ⟨mergeH_frame fuel h self ov, ?_, ?_⟩
  · simp only [YamlFile.mergeH, he, mergeLoopF]
    rfl
  · simp only [YamlFile.mergeH, he, mergeLoopF, Option.getD_some]
    show toDictH (initH (h.alloc (h.mem self.dataA)).1 (h.alloc (h.mem self.dataA)).2
        self.filePath).1
      ((initH (h.alloc (h.mem self.dataA)).1 (h.alloc (h.mem self.dataA)).2
        self.filePath).2).dataA = toDictH h self.dataA
    rw [initH_toDict, alloc_mem_self]
    rfl

/-- C5 witness: base `{"a": 1}` at address 0, an empty override dict at
address 1; a non-dict override exercises the frame part at address 0. -/
theorem merge_never_mutates_and_empty_identity_witness :
    hEx.mem 1 = [] ∧
    ((YamlFile.mergeH 3 hEx selfEx (HVal.atomI 5)).1).mem 0 = hEx.mem 0 ∧
    ((YamlFile.mergeH 3 hEx selfEx (HVal.ref 1)).2).isSome = true ∧
    toDictH (YamlFile.mergeH 3 hEx selfEx (HVal.ref 1)).1
        (((YamlFile.mergeH 3 hEx selfEx (HVal.ref 1)).2).getD ⟨0, none⟩).dataA
      = toDictH hEx selfEx.dataA := by
  have h := merge_never_mutates_and_empty_identity 3 hEx selfEx (HVal.atomI 5) 1 rfl
  have h2 := merge_never_mutates_and_empty_identity 3 hEx selfEx (HVal.ref 1) 1 rfl
  exact ⟨rfl, h.1 0 (by decide), h2.2.1, h2.2.2⟩

/-- C10: whenever `merge` returns a document — on the successful dict-merge
branch and on the non-dict-override fallback branch alike — that document
carries the base's `file_path`. -/
theorem merge_keeps_file_path (fuel : Nat) (h : Store) (self : YamlFileH)
    (ov : HVal) (h2 : Store) (r : YamlFileH)
    (hm : YamlFile.mergeH fuel h self ov = (h2, some r)) :
    r.filePath = self.filePath := by
  cases ov
  case ref ovA =>
    simp only [YamlFile.mergeH] at hm
    rcases hml : mergeLoopF (mergeDictRec fuel) (h.mem ovA)
        (h.alloc (h.mem self.dataA)).1 (h.alloc (h.mem self.dataA)).2 with ⟨h1, o⟩
    rw [hml] at hm
    cases o with
    | some resA =>
      injection hm with hA hB
      injection hB with hB2
      rw [← hB2]
      exact initH_filePath h1 resA self.filePath
    | none =>
      injection hm with hA hB
      exact Option.noConfusion hB
  all_goals
    simp only [YamlFile.mergeH] at hm
    injection hm with hA hB
    injection hB with hB2
    rw [← hB2]
    exact initH_filePath _ _ self.filePath

/-- C10 witness: a non-dict override against `{"k": 2}` takes the fallback
branch and the returned document keeps the origin path. -/
theorem merge_keeps_file_path_witness :
    YamlFile.mergeH 1 hEx2 selfEx2 (HVal.atomI 7)
      = ((YamlFile.mergeH 1 hEx2 selfEx2 (HVal.atomI 7)).1, some ⟨2, some "origin.yaml"⟩) ∧
    (⟨2, some "origin.yaml"⟩ : YamlFileH).filePath = some "origin.yaml" :=
  ⟨rfl, merge_keeps_file_path 1 hEx2 selfEx2 (HVal.atomI 7)
    (YamlFile.mergeH 1 hEx2 selfEx2 (HVal.atomI 7)).1 ⟨2, some "origin.yaml"⟩ rfl⟩
